import Mathlib

/-!
Verification development for `api/screener.py` of `my-screener-app`: a shallow
embedding of the stock-screener's metric calculator, ranker and HTTP handler,
together with theorems settling the frozen claims about them.

Modelling conventions:
* Python/numpy floats flowing through the pandas pipeline are modelled by
  `FVal`: a finite rational, `inf`, `negInf` or `nan` (`np.nan` is the
  "undefined" marker the spec talks about).
* `pandas.Series.rank(ascending=…, na_option='bottom')` with the default
  `method='average'` is modelled by `seriesRank`: a defined value's rank is
  (number of strictly better defined values) + (ties + 1)/2, and all NaN
  entries tie at the bottom with rank (number of defined) + (NaNs + 1)/2.
* DataFrames of collected metrics are `List MetricRow`; column access
  `df[factor]` is `MetricRow.getCol`, which returns `none` (pandas `KeyError`)
  for a name that is not one of the numeric factor columns.  Ranking by the
  two string identifier columns (代碼, 公司名稱) is out of scope: every claim
  either names a numeric factor or assumes the factor is none of the seven
  columns.
* `sort_values` is modelled by a correct comparison sort
  (`List.insertionSort`); pandas' default quicksort is unstable and the order
  of equal composite scores is unspecified in the source, so only sortedness
  is relied upon.
-/

/-- A numeric cell of the metrics DataFrame: a float that is either finite,
(±)infinite, or NaN (`np.nan`, the undefined marker). -/
inductive FVal where
  | fin (q : ℚ)
  | inf
  | negInf
  | nan
deriving DecidableEq, Repr

/-- A non-NaN float, as ordered by numpy/pandas comparisons:
`-inf < finite < inf`. -/
inductive FNum where
  | negInf
  | fin (q : ℚ)
  | inf
deriving DecidableEq, Repr

/-- Strict float order on non-NaN values. -/
def FNum.lt : FNum → FNum → Bool
  | .negInf, .negInf => false
  | .negInf, _ => true
  | .fin _, .negInf => false
  | .fin a, .fin b => decide (a < b)
  | .fin _, .inf => true
  | .inf, _ => false

/-- Projection of a float to its non-NaN ordering class; NaN has none and is
handled by `na_option='bottom'`. -/
def FVal.toNum? : FVal → Option FNum
  | .fin q => some (.fin q)
  | .inf => some .inf
  | .negInf => some .negInf
  | .nan => none

/-- Rank of the defined value `v` within the column `vs` under
`method='average'`: strictly better defined values come first, the tie group
containing `v` is averaged.  `asc = true` is `ascending=True`. -/
def rankCount (vs : List (Option FNum)) (asc : Bool) (v : FNum) : ℚ :=
  let better := (vs.filter (fun w => match w with
      | some w => if asc then FNum.lt w v else FNum.lt v w
      | none => false)).length
  let ties := (vs.filter (· = some v)).length
  (better : ℚ) + ((ties : ℚ) + 1) / 2

/-- Rank shared by every NaN entry of the column under `na_option='bottom'`:
all NaNs tie strictly after every defined value, whatever the direction. -/
def nanRank (vs : List (Option FNum)) : ℚ :=
  let d := (vs.filter (fun w => w.isSome)).length
  let n := (vs.filter (fun w => w.isNone)).length
  (d : ℚ) + ((n : ℚ) + 1) / 2

/-- The whole rank column `Series.rank(ascending=asc, na_option='bottom')`
(default `method='average'`), positionally over the column `vs`. -/
def seriesRank (vs : List (Option FNum)) (asc : Bool) : List ℚ :=
  vs.map (fun v => match v with
    | some v => rankCount vs asc v
    | none => nanRank vs)

/-- One row of the collected-metrics DataFrame built from
`calculate_metrics` dictionaries: the two string identifier columns and the
five numeric factor columns. -/
structure MetricRow where
  code : String
  name : String
  roic : FVal
  rdToSales : FVal
  netDebtToEbitda : FVal
  evToFcf : FVal
  revenueCagr3y : FVal
deriving DecidableEq, Repr

/-- The five numeric factor column labels, as produced by
`calculate_metrics`. -/
def factorNames : List String :=
  ["ROIC", "研發/銷售", "淨債務/EBITDA", "EV/FCF", "營收CAGR(3Y)"]

/-- All seven column labels of the metrics DataFrame. -/
def allColumnNames : List String :=
  ["代碼", "公司名稱"] ++ factorNames

/-- The projection a numeric factor column name denotes, `none` for any
other name (pandas raises `KeyError` on `df[factor]`). -/
def colProj (f : String) : Option (MetricRow → FVal) :=
  if f = "ROIC" then some MetricRow.roic
  else if f = "研發/銷售" then some MetricRow.rdToSales
  else if f = "淨債務/EBITDA" then some MetricRow.netDebtToEbitda
  else if f = "EV/FCF" then some MetricRow.evToFcf
  else if f = "營收CAGR(3Y)" then some MetricRow.revenueCagr3y
  else none

/-- Column access `df[factor]` restricted to one row: the row's value for a
numeric factor column. -/
def MetricRow.getCol (r : MetricRow) (f : String) : Option FVal :=
  (colProj f).map (fun g => g r)

/-- One factor's entry in the request's `weights` mapping. -/
structure WeightInfo where
  weight : ℚ
  higher_is_better : Bool
deriving DecidableEq, Repr

/-- The whole `factor` column of the DataFrame, projected to rank inputs;
`none` if the column does not exist (`KeyError`). -/
def colVals (df : List MetricRow) (factor : String) : Option (List (Option FNum)) :=
  (colProj factor).map (fun g => df.map (fun r => (g r).toNum?))

/-- The per-factor rank of row `r` within `df`, i.e. row `r`'s entry of the
`{factor}_排名` column:
`df[factor].rank(ascending=(not higher_is_better), na_option='bottom')`.
Fails with the factor name when the column is missing (`KeyError`). -/
def rowFactorRank (df : List MetricRow) (factor : String) (hib : Bool)
    (r : MetricRow) : Except String ℚ :=
  match r.getCol factor, colVals df factor with
  | some v, some col =>
      match v.toNum? with
      | some fv => .ok (rankCount col (!hib) fv)
      | none => .ok (nanRank col)
  | _, _ => .error factor

/-- A row of `ranked_df`: the original metric row, its per-factor rank
columns (in `weights` iteration order) and the composite score 綜合分. -/
structure RankedRow where
  row : MetricRow
  ranks : List (String × ℚ)
  score : ℚ
deriving DecidableEq, Repr

/-- Builds row `r`'s ranked row: every weighted factor's rank column entry,
and 綜合分 = Σ rank × weight over the `weights` mapping (starting from 0). -/
def rankedRowOf (df : List MetricRow) (weights : List (String × WeightInfo))
    (r : MetricRow) : Except String RankedRow := do
  let pairs ← weights.mapM (fun fw => do
      let q ← rowFactorRank df fw.1 fw.2.higher_is_better r
      pure (fw.1, fw.2.weight, q))
  pure { row := r
         ranks := pairs.map (fun p => (p.1, p.2.2))
         score := (pairs.map (fun p => p.2.2 * p.2.1)).sum }

/-- Comparison used by `sort_values(by='綜合分')`. -/
def scoreLE (a b : RankedRow) : Prop := a.score ≤ b.score

instance : DecidableRel scoreLE := fun a b => inferInstanceAs (Decidable (a.score ≤ b.score))

instance : IsTotal RankedRow scoreLE := ⟨fun a b => le_total a.score b.score⟩

instance : IsTrans RankedRow scoreLE := ⟨fun _ _ _ h h' => le_trans h h'⟩

/-- Re-indexing `reset_index(drop=True); final_df.index = final_df.index + 1`:
attaches consecutive 1-based positions (starting at `i`) to the sorted rows. -/
def withPositions : ℕ → List RankedRow → List (ℕ × RankedRow)
  | _, [] => []
  | i, r :: rs => (i, r) :: withPositions (i + 1) rs

/-- The ranker `rank_stocks(df, weights)`: per weighted factor a
`{factor}_排名` column, then the composite 綜合分 column, sort ascending by
綜合分 and re-index 1-based.  Fails (propagating to the handler's catch-all)
when a weighted factor is not a DataFrame column. -/
def rank_stocks (df : List MetricRow) (weights : List (String × WeightInfo)) :
    Except String (List (ℕ × RankedRow)) := do
  let rows ← df.mapM (rankedRowOf df weights)
  pure (withPositions 1 (rows.insertionSort scoreLE))

/-! ### JSON values and the HTTP boundary

`JVal` models a parsed JSON value as Flask/`json` hands it to the handler
(objects are the parsed dicts, so keys are unique and looked up
associatively).  `jraw` models the non-standard tokens Python's `json.dumps`
emits for float infinities. -/

/-- A parsed JSON value. -/
inductive JVal where
  | jnull
  | jbool (b : Bool)
  | jnum (q : ℚ)
  | jstr (s : String)
  | jarr (items : List JVal)
  | jobj (fields : List (String × JVal))
  | jraw (token : String)

/-- Python truthiness of a parsed JSON value (`if not request_data`,
`if not tickers`, …): `None`, `False`, `0`, `''`, `[]`, `{}` are falsy. -/
def JVal.isTruthy : JVal → Bool
  | .jnull => false
  | .jbool b => b
  | .jnum q => decide (q ≠ 0)
  | .jstr s => decide (s ≠ "")
  | .jarr [] => false
  | .jarr (_ :: _) => true
  | .jobj [] => false
  | .jobj (_ :: _) => true
  | .jraw _ => true

/-- Dict lookup `d.get(key)` on a parsed JSON object. -/
def jlookup (fields : List (String × JVal)) (key : String) : Option JVal :=
  (fields.find? (fun p => p.1 = key)).map Prod.snd

/-- The request body as the handler receives it: `invalidJson` stands for a
body Flask's `request.get_json()` cannot parse as JSON (Flask raises a
`BadRequest`/`UnsupportedMediaType` exception there, which the handler's
catch-all converts to a 500); `json v` is a successfully parsed body. -/
inductive ReqBody where
  | invalidJson
  | json (v : JVal)

/-- An HTTP response: status code plus JSON payload. -/
structure HResp where
  status : ℕ
  body : JVal

/-- Response `jsonify({"error": msg}), code`. -/
def errorResp (code : ℕ) (msg : String) : HResp :=
  ⟨code, .jobj [("error", .jstr msg)]⟩

/-- The catch-all 500 response
`jsonify({"error": …, "message": str(e)}), 500`. -/
def catchAllResp (msg : String) : HResp :=
  ⟨500, .jobj [("error", JVal.jstr "伺服器在處理請求時發生未知內部錯誤。"),
    ("message", JVal.jstr msg)]⟩

/-- Replacement `df.replace([np.inf, -np.inf], np.nan)` on one cell. -/
def replaceInfVal : FVal → FVal
  | .inf => .nan
  | .negInf => .nan
  | v => v

/-- The step `metrics_df = pd.DataFrame(all_metrics).replace([np.inf,
-np.inf], np.nan)` on one collected row. -/
def replaceInfRow (r : MetricRow) : MetricRow :=
  { r with
    roic := replaceInfVal r.roic
    rdToSales := replaceInfVal r.rdToSales
    netDebtToEbitda := replaceInfVal r.netDebtToEbitda
    evToFcf := replaceInfVal r.evToFcf
    revenueCagr3y := replaceInfVal r.revenueCagr3y }

/-- Serialization of a numeric cell after
`final_ranked_df.where(pd.notnull(final_ranked_df), None)` and `jsonify`:
NaN becomes JSON `null`; a float infinity (never present after the replace
step) would be rendered as the non-standard `Infinity` token. -/
def jsonOfFVal : FVal → JVal
  | .fin q => .jnum q
  | .nan => .jnull
  | .inf => .jraw "Infinity"
  | .negInf => .jraw "-Infinity"

/-- Serialization `to_dict(orient='records')` of one ranked row: the seven original
columns, the per-factor rank columns, then 綜合分.  The 1-based index is
dropped by `to_dict` (order alone conveys the final ranking). -/
def serializeRow (rr : RankedRow) : JVal :=
  .jobj ([("代碼", JVal.jstr rr.row.code), ("公司名稱", JVal.jstr rr.row.name),
      ("ROIC", jsonOfFVal rr.row.roic),
      ("研發/銷售", jsonOfFVal rr.row.rdToSales),
      ("淨債務/EBITDA", jsonOfFVal rr.row.netDebtToEbitda),
      ("EV/FCF", jsonOfFVal rr.row.evToFcf),
      ("營收CAGR(3Y)", jsonOfFVal rr.row.revenueCagr3y)]
    ++ rr.ranks.map (fun p => (p.1 ++ "_排名", JVal.jnum p.2))
    ++ [("綜合分", JVal.jnum rr.score)])

/-- Parses one `weights` entry: `weight` must be a JSON number (a non-number
makes the `rank * weight` arithmetic in `rank_stocks` raise, reaching the
catch-all), `higher_is_better` is read with Python truthiness and its absence
is a `KeyError` inside `rank_stocks`, also reaching the catch-all. -/
def parseWeightInfo : JVal → Option WeightInfo
  | .jobj fs =>
      match jlookup fs "weight", jlookup fs "higher_is_better" with
      | some (.jnum w), some hib => some ⟨w, hib.isTruthy⟩
      | _, _ => none
  | _ => none

/-- Parses the whole `weights` object into the factor → weight-info list
`rank_stocks` iterates over, in insertion order. -/
def parseWeights (fields : List (String × JVal)) :
    Option (List (String × WeightInfo)) :=
  fields.mapM (fun p => (parseWeightInfo p.2).map (fun wi => (p.1, wi)))

/-- The fetch-and-compute pipeline, ranking and serialization the handler
runs after input validation.  `fetchCompute` is the oracle for the external
provider: the combined outcome of `get_stock_data` followed by
`calculate_metrics` for one entry of the `tickers` list (`none` means the
ticker is skipped).  All tickers are processed, in list order. -/
def afterValidation (tickers : List JVal) (wfields : List (String × JVal))
    (fetchCompute : JVal → Option MetricRow) : HResp :=
  let all_metrics := tickers.filterMap fetchCompute
  if all_metrics = [] then
    errorResp 500 "未能從 yfinance 獲取任何有效的股票數據。請檢查股票代碼或稍後再試。"
  else
    let metrics_df := all_metrics.map replaceInfRow
    match parseWeights wfields with
    | none => catchAllResp "invalid weight entry"
    | some weights =>
        match rank_stocks metrics_df weights with
        | .error f => catchAllResp f
        | .ok out => ⟨200, .jarr (out.map (fun p => serializeRow p.2))⟩

/-- The view function `handler` for `POST /`, as a function of the parsed
request body and the provider oracle.  A body that is not valid JSON makes
`request.get_json()` raise; the raise is caught by the handler's catch-all,
producing a 500.  A truthy non-object body makes `request_data.get(…)`
raise `AttributeError`, likewise caught.  Otherwise the validation ladder of
the source is followed, then `afterValidation`. -/
def handler (body : ReqBody) (fetchCompute : JVal → Option MetricRow) : HResp :=
  match body with
  | .invalidJson => catchAllResp "request body is not valid JSON"
  | .json v =>
      if ¬ v.isTruthy then errorResp 400 "無效的請求: 未提供 JSON 數據"
      else
        match v with
        | .jobj fields =>
            let tickers := jlookup fields "tickers"
            let weights := jlookup fields "weights"
            match tickers with
            | some (.jarr (t :: ts)) =>
                match weights with
                | some (.jobj (w :: ws)) =>
                    afterValidation (t :: ts) (w :: ws) fetchCompute
                | _ => errorResp 400 "無效的請求: 'weights' 必須是一個非空的字典"
            | _ => errorResp 400 "無效的請求: 'tickers' 必須是一個非空的列表"
        | _ => catchAllResp "AttributeError"

/-! ### The metric calculator

`calculate_metrics` works on the raw statements fetched per ticker.  A
pandas statement DataFrame is modelled as a list of rows: line-item name →
the row's values, most recent period first.  `.loc[name]` is an associative
lookup (`KeyError` = `none`), `.iloc[i]` is positional (`IndexError` =
`none`); each factor's `try/except (KeyError, IndexError, …)` block is an
`Option`-valued match, so a missing line item degrades that one factor to
NaN (`none` here).  Cell values are real numbers; the guards on the
denominators (`if … != 0` / `if … > 0`) make the guarded divisions total, so
the `ZeroDivisionError` arm of the excepts is unreachable.  The outer
`except Exception: return None` of `calculate_metrics` has no reachable
raise site in this model, so the function is total. -/

/-- A statement DataFrame: line-item rows, most recent period first. -/
structure Table where
  rows : List (String × List ℝ)

/-- Row access `table.loc[key]`: the row of a line item, `none` on
`KeyError`. -/
def Table.loc (t : Table) (key : String) : Option (List ℝ) :=
  (t.rows.find? (fun p => p.1 = key)).map Prod.snd

/-- Cell access `table.loc[key].iloc[0]`: the most recent value of a line
item. -/
def Table.loc0 (t : Table) (key : String) : Option ℝ :=
  (t.loc key).bind (fun row => row.get? 0)

/-- The slice of `stock.info` the calculator reads, each key optional
(`info.get(…)` returns `None` when absent). -/
structure Info where
  shortName : Option String
  netDebt : Option ℝ
  ebitda : Option ℝ
  enterpriseValue : Option ℝ

/-- The raw bundle `get_stock_data` returns for one ticker. -/
structure StockData where
  info : Info
  financials : Table
  balance_sheet : Table
  cashflow : Table

/-- Factor 1, ROIC: tax rate from Tax Provision / Pretax Income when Pretax
Income > 0 else 0; NOPAT = Operating Income × (1 − tax rate); Invested
Capital = Total Debt + Total Equity − Cash; NaN when the invested capital is
0 or any line item is missing. -/
noncomputable def tryROIC (financials balance_sheet : Table) : Option ℝ :=
  match financials.loc0 "Operating Income", financials.loc0 "Tax Provision",
      financials.loc0 "Pretax Income", balance_sheet.loc0 "Total Debt",
      balance_sheet.loc0 "Total Equity Gross Minority Interest",
      balance_sheet.loc0 "Cash And Cash Equivalents" with
  | some op_income, some tax_provision, some income_before_tax,
    some total_debt, some total_equity, some cash_and_equivalents =>
      let tax_rate := if income_before_tax > 0
        then tax_provision / income_before_tax else 0
      let nopat := op_income * (1 - tax_rate)
      let invested_capital := total_debt + total_equity - cash_and_equivalents
      if invested_capital ≠ 0 then some (nopat / invested_capital) else none
  | _, _, _, _, _, _ => none

/-- Factor 2, 研發/銷售: R&D Expense / Total Revenue when Total Revenue > 0. -/
noncomputable def tryRdToSales (financials : Table) : Option ℝ :=
  match financials.loc0 "Research And Development",
      financials.loc0 "Total Revenue" with
  | some rd_expense, some revenue =>
      if revenue > 0 then some (rd_expense / revenue) else none
  | _, _ => none

/-- Factor 3, 淨債務/EBITDA: provider-supplied `netDebt`/`ebitda` when present,
else derived from the statements; NaN when EBITDA is 0 or inputs missing. -/
noncomputable def tryNetDebtToEbitda (info : Info)
    (financials balance_sheet cashflow : Table) : Option ℝ :=
  let net_debt : Option ℝ :=
    match info.netDebt with
    | some nd => some nd
    | none =>
        match balance_sheet.loc0 "Total Debt",
            balance_sheet.loc0 "Cash And Cash Equivalents" with
        | some total_debt, some cash_and_equivalents =>
            some (total_debt - cash_and_equivalents)
        | _, _ => none
  let ebitda : Option ℝ :=
    match info.ebitda with
    | some e => some e
    | none =>
        match financials.loc0 "Operating Income",
            cashflow.loc0 "Depreciation And Amortization" with
        | some op_income, some da => some (op_income + da)
        | _, _ => none
  match net_debt, ebitda with
  | some nd, some e => if e ≠ 0 then some (nd / e) else none
  | _, _ => none

/-- Factor 4, EV/FCF: Enterprise Value / Free Cash Flow; NaN when FCF is 0 or
either input missing (`None` enterprise value is the caught TypeError). -/
noncomputable def tryEvToFcf (info : Info) (cashflow : Table) : Option ℝ :=
  match info.enterpriseValue, cashflow.loc0 "Free Cash Flow" with
  | some ev, some fcf => if fcf ≠ 0 then some (ev / fcf) else none
  | _, _ => none

/-- Factor 5, 營收CAGR(3Y): requires a Total Revenue row of length ≥ 4;
`((Revenue[0] / Revenue[3]) ** (1/3)) - 1` when `Revenue[3] > 0`, NaN
otherwise. -/
noncomputable def tryCagr (financials : Table) : Option ℝ :=
  match financials.loc "Total Revenue" with
  | some revs =>
      if 4 ≤ revs.length then
        match revs.get? 0, revs.get? 3 with
        | some revenue_t0, some revenue_t3 =>
            if revenue_t3 > 0 then
              some ((revenue_t0 / revenue_t3) ^ ((1 : ℝ) / 3) - 1)
            else none
        | _, _ => none
      else none
  | none => none

/-- The five computed ratios of one ticker, `none` = `np.nan`, plus the two
identifier entries of the returned dict. -/
structure MetricsR where
  code : String
  name : String
  roic : Option ℝ
  rd_to_sales : Option ℝ
  net_debt_to_ebitda : Option ℝ
  ev_to_fcf : Option ℝ
  cagr : Option ℝ

/-- The calculator `calculate_metrics(data)`: each factor in its own
isolated try-scope; the company name falls back to the ticker symbol. -/
noncomputable def calculate_metrics (ticker_symbol : String) (data : StockData) :
    MetricsR :=
  { code := ticker_symbol
    name := data.info.shortName.getD ticker_symbol
    roic := tryROIC data.financials data.balance_sheet
    rd_to_sales := tryRdToSales data.financials
    net_debt_to_ebitda :=
      tryNetDebtToEbitda data.info data.financials data.balance_sheet data.cashflow
    ev_to_fcf := tryEvToFcf data.info data.cashflow
    cagr := tryCagr data.financials }

/-! ### Order facts about non-NaN floats -/

/-! ### Concrete data used by the witnesses -/

/-- A metric row whose only defined entry is the given ROIC value; the other
four factors are NaN. -/
def rowOfROIC (c : String) (v : FVal) : MetricRow :=
  { code := c, name := c, roic := v, rdToSales := .nan,
    netDebtToEbitda := .nan, evToFcf := .nan, revenueCagr3y := .nan }

/-- An info dict with none of the optional keys present. -/
def infoEx : Info := ⟨none, none, none, none⟩

/-- An empty statement table. -/
def emptyTable : Table := ⟨[]⟩

def finTableC7 : Table :=
  ⟨[("Operating Income", [100]), ("Tax Provision", [20]),
    ("Pretax Income", [80])]⟩

def balTableC7 : Table :=
  ⟨[("Total Debt", [50]), ("Total Equity Gross Minority Interest", [150]),
    ("Cash And Cash Equivalents", [100])]⟩

def dExC7 : StockData := ⟨infoEx, finTableC7, balTableC7, emptyTable⟩

def finTableC6 : Table := ⟨[("Total Revenue", [16, 8, 4, 2])]⟩

def dExC6 : StockData := ⟨infoEx, finTableC6, emptyTable, emptyTable⟩

/-- Check `isinstance(x, list) and x` on an optional JSON field. -/
def isNonEmptyArr : Option JVal → Bool
  | some (.jarr (_ :: _)) => true
  | _ => false

/-- Check `isinstance(x, dict) and x` on an optional JSON field. -/
def isNonEmptyObj : Option JVal → Bool
  | some (.jobj (_ :: _)) => true
  | _ => false

/-- A well-formed single-factor weights object. -/
def wobjROIC : JVal :=
  .jobj [("ROIC", .jobj [("weight", .jnum 1), ("higher_is_better", .jbool true)])]

/-- A 1000-element ticker list. -/
def manyTickers : List JVal := JVal.jstr "T" :: List.replicate 999 (JVal.jstr "T")

/-- A float that is neither `inf` nor `-inf`. -/
def FVal.isFinOrNan : FVal → Bool
  | .inf => false
  | .negInf => false
  | _ => true

/-! ### Sanity checks of the rank model -/

example :
    seriesRank [some (.fin 1), none, none] true = [1, 5/2, 5/2] := by
  simp +decide [seriesRank, rankCount, nanRank, FNum.lt, List.filter_cons, List.filter_nil]
  norm_num

example :
    seriesRank [some (.fin 3), some (.fin 1), some (.fin 3)] true
      = [5/2, 1, 5/2] := by
  simp +decide [seriesRank, rankCount, nanRank, FNum.lt, List.filter_cons, List.filter_nil]
  norm_num

example :
    seriesRank [some (.fin 3), some (.fin 1), some (.fin 3)] false
      = [3/2, 3, 3/2] := by
  simp +decide [seriesRank, rankCount, nanRank, FNum.lt, List.filter_cons, List.filter_nil]
  norm_num

lemma FNum.lt_irrefl (v : FNum) : FNum.lt v v = false := by
  cases v <;> simp [FNum.lt]

lemma FNum.lt_cases (a b : FNum) :
    (FNum.lt a b = true ∧ FNum.lt b a = false ∧ a ≠ b)
    ∨ (FNum.lt a b = false ∧ FNum.lt b a = true ∧ a ≠ b)
    ∨ (FNum.lt a b = false ∧ FNum.lt b a = false ∧ a = b) := by
  cases a with
  | negInf => cases b <;> simp [FNum.lt]
  | fin qa =>
      cases b with
      | negInf => simp [FNum.lt]
      | fin qb =>
          rcases lt_trichotomy qa qb with h | h | h
          · exact Or.inl (by simp [FNum.lt, h, not_lt_of_lt h, ne_of_lt h])
          · subst h
            exact Or.inr (Or.inr (by simp [FNum.lt]))
          · exact Or.inr (Or.inl
              (by simp [FNum.lt, h, not_lt_of_lt h, (ne_of_lt h).symm]))
      | inf => simp [FNum.lt]
  | inf => cases b <;> simp [FNum.lt]

lemma FNum.lt_asymm {a b : FNum} (h : FNum.lt a b = true) :
    FNum.lt b a = false := by
  rcases FNum.lt_cases a b with ⟨_, h2, _⟩ | ⟨h1, _, _⟩ | ⟨h1, _, _⟩
  · exact h2
  · rw [h] at h1; cases h1
  · rw [h] at h1; cases h1

/-! ### Counting lemmas for filtered lists -/

lemma length_filter_add_le {α : Type} (l : List α) (p q r : α → Bool)
    (hpr : ∀ a, p a = true → r a = true) (hqr : ∀ a, q a = true → r a = true)
    (hpq : ∀ a, ¬(p a = true ∧ q a = true)) :
    (l.filter p).length + (l.filter q).length ≤ (l.filter r).length := by
  induction l with
  | nil => simp
  | cons a l ih =>
      simp only [List.filter_cons]
      by_cases hp : p a = true
      · have hr := hpr a hp
        have hq : ¬ q a = true := fun hq => hpq a ⟨hp, hq⟩
        simp [hp, hr, hq]
        omega
      · by_cases hq : q a = true
        · have hr := hqr a hq
          simp [hp, hq, hr]
          omega
        · by_cases hr : r a = true <;> simp [hp, hq, hr] <;> omega

lemma one_le_length_filter {α : Type} (l : List α) (p : α → Bool) (a : α)
    (ha : a ∈ l) (hpa : p a = true) : 1 ≤ (l.filter p).length := by
  have : a ∈ l.filter p := List.mem_filter.mpr ⟨ha, hpa⟩
  exact List.length_pos.mpr (List.ne_nil_of_mem this)

lemma length_filter_three_partition {α : Type} (l : List α) (p q s : α → Bool)
    (h : ∀ a ∈ l,
      (p a = true ∧ q a = false ∧ s a = false)
      ∨ (p a = false ∧ q a = true ∧ s a = false)
      ∨ (p a = false ∧ q a = false ∧ s a = true)) :
    (l.filter p).length + (l.filter q).length + (l.filter s).length
      = l.length := by
  induction l with
  | nil => simp
  | cons a l ih =>
      have ha := h a (List.mem_cons_self a l)
      have ih' := ih (fun b hb => h b (List.mem_cons_of_mem a hb))
      simp only [List.filter_cons, List.length_cons]
      rcases ha with ⟨h1, h2, h3⟩ | ⟨h1, h2, h3⟩ | ⟨h1, h2, h3⟩ <;>
        simp [h1, h2, h3] <;> omega

/-! ### Rank bounds: defined values beat NaN, directions are mirror images -/

/-- A defined value's average rank never exceeds the number of defined
entries of the column. -/
lemma rankCount_le_defined (vs : List (Option FNum)) (asc : Bool) (v : FNum)
    (hv : some v ∈ vs) :
    rankCount vs asc v ≤ ((vs.filter (fun w => w.isSome)).length : ℚ) := by
  unfold rankCount
  set p : Option FNum → Bool := fun w => match w with
    | some w => if asc then FNum.lt w v else FNum.lt v w
    | none => false with hp
  set q : Option FNum → Bool := (· = some v) with hq
  have hdisj : ∀ w, ¬(p w = true ∧ q w = true) := by
    intro w ⟨hw1, hw2⟩
    have : w = some v := by simpa [hq] using hw2
    subst this
    have : FNum.lt v v = true := by
      cases asc <;> simpa [hp] using hw1
    rw [FNum.lt_irrefl] at this
    cases this
  have hsum : (vs.filter p).length + (vs.filter q).length
      ≤ (vs.filter (fun w => w.isSome)).length := by
    refine length_filter_add_le vs p q _ ?_ ?_ hdisj
    · intro a hpa
      cases a with
      | some w => rfl
      | none => simp [hp] at hpa
    · intro a hqa
      have : a = some v := by simpa [hq] using hqa
      subst this; rfl
  have hties : 1 ≤ (vs.filter q).length :=
    one_le_length_filter vs q (some v) hv (by simp [hq])
  have h2 : ((vs.filter q).length : ℚ) + 1 ≤ 2 * (vs.filter q).length := by
    have : (1 : ℚ) ≤ (vs.filter q).length := by exact_mod_cast hties
    linarith
  have h3 : ((vs.filter p).length : ℚ) + (vs.filter q).length
      ≤ ((vs.filter (fun w => w.isSome)).length : ℚ) := by
    exact_mod_cast hsum
  linarith

/-- Every NaN entry's bottom rank strictly exceeds the number of defined
entries of the column. -/
lemma nanRank_gt_defined (vs : List (Option FNum)) (hn : none ∈ vs) :
    ((vs.filter (fun w => w.isSome)).length : ℚ) + 1 ≤ nanRank vs := by
  unfold nanRank
  have hone : 1 ≤ (vs.filter (fun w => w.isNone)).length :=
    one_le_length_filter vs _ none hn (by simp)
  have : (1 : ℚ) ≤ ((vs.filter (fun w => w.isNone)).length : ℚ) := by
    exact_mod_cast hone
  linarith

/-- Core of the `na_option='bottom'` convention: a defined value's rank is
strictly smaller (better) than the NaN rank, for either direction. -/
lemma rankCount_lt_nanRank (vs : List (Option FNum)) (asc : Bool) (v : FNum)
    (hv : some v ∈ vs) (hn : none ∈ vs) :
    rankCount vs asc v < nanRank vs := by
  have h1 := rankCount_le_defined vs asc v hv
  have h2 := nanRank_gt_defined vs hn
  linarith

/-- On a fully defined column the two ranking directions are mirror images:
ascending rank + descending rank = column length + 1. -/
lemma rankCount_asc_add_desc (vs : List (Option FNum)) (v : FNum)
    (hall : ∀ w ∈ vs, w.isSome = true) :
    rankCount vs true v + rankCount vs false v = (vs.length : ℚ) + 1 := by
  unfold rankCount
  set p : Option FNum → Bool := fun w => match w with
    | some w => if true then FNum.lt w v else FNum.lt v w
    | none => false with hp
  set q : Option FNum → Bool := fun w => match w with
    | some w => if false then FNum.lt w v else FNum.lt v w
    | none => false with hq
  set s : Option FNum → Bool := (· = some v) with hs
  have hpart : (vs.filter p).length + (vs.filter q).length
      + (vs.filter s).length = vs.length := by
    refine length_filter_three_partition vs p q s ?_
    intro a ha
    have hsome := hall a ha
    cases a with
    | none => simp at hsome
    | some w =>
        rcases FNum.lt_cases w v with ⟨h1, h2, h3⟩ | ⟨h1, h2, h3⟩ | ⟨h1, h2, h3⟩
        · exact Or.inl (by simp [hp, hq, hs, h1, h2, h3])
        · exact Or.inr (Or.inl (by simp [hp, hq, hs, h1, h2, h3]))
        · exact Or.inr (Or.inr (by simp [hp, hq, hs, h1, h2, h3, FNum.lt_irrefl]))
  have hc : ((vs.filter p).length : ℚ) + (vs.filter q).length
      + (vs.filter s).length = (vs.length : ℚ) := by exact_mod_cast hpart
  ring_nf
  ring_nf at hc
  linarith

/-- With `ascending=False` (i.e. `higher_is_better=True`) a strictly largest
value that occurs exactly once gets rank 1. -/
lemma rankCount_top (vs : List (Option FNum)) (v : FNum)
    (hcount : (vs.filter (· = some v)).length = 1)
    (hbest : ∀ w ∈ vs, w ≠ some v →
      ∃ w', w = some w' ∧ FNum.lt w' v = true) :
    rankCount vs false v = 1 := by
  unfold rankCount
  have hzero : vs.filter (fun w => match w with
      | some w => if false then FNum.lt w v else FNum.lt v w
      | none => false) = [] := by
    refine List.filter_eq_nil_iff.mpr ?_
    intro a ha
    by_cases he : a = some v
    · subst he
      simp [FNum.lt_irrefl]
    · obtain ⟨w', rfl, hw'⟩ := hbest a ha he
      simp [FNum.lt_asymm hw']
  rw [hzero, hcount]
  norm_num

/-- With `ascending=True` (i.e. `higher_is_better=False`) a strictly
smallest value that occurs exactly once gets rank 1. -/
lemma rankCount_bottom (vs : List (Option FNum)) (v : FNum)
    (hcount : (vs.filter (· = some v)).length = 1)
    (hworst : ∀ w ∈ vs, w ≠ some v →
      ∃ w', w = some w' ∧ FNum.lt v w' = true) :
    rankCount vs true v = 1 := by
  unfold rankCount
  have hzero : vs.filter (fun w => match w with
      | some w => if true then FNum.lt w v else FNum.lt v w
      | none => false) = [] := by
    refine List.filter_eq_nil_iff.mpr ?_
    intro a ha
    by_cases he : a = some v
    · subst he
      simp [FNum.lt_irrefl]
    · obtain ⟨w', rfl, hw'⟩ := hworst a ha he
      simp [FNum.lt_asymm hw']
  rw [hzero, hcount]
  norm_num

/-! ### Facts about column projections -/

/-- The five factor projections commute with the `replace([inf, -inf], nan)`
step. -/
lemma colProj_replaceInfRow (f : String) (g : MetricRow → FVal)
    (hg : colProj f = some g) (r : MetricRow) :
    g (replaceInfRow r) = replaceInfVal (g r) := by
  unfold colProj at hg
  split_ifs at hg <;> cases hg <;> rfl

/-- A name outside the seven DataFrame columns has no projection: ranking it
raises `KeyError`. -/
lemma colProj_eq_none (f : String) (hf : f ∉ allColumnNames) :
    colProj f = none := by
  unfold colProj
  simp only [allColumnNames, factorNames] at hf
  split_ifs with h1 h2 h3 h4 h5 <;> simp_all

/-- Closed form of a successful `rowFactorRank` once the factor column is
known to exist. -/
lemma rowFactorRank_ok (df : List MetricRow) (f : String) (hib : Bool)
    (r : MetricRow) (g : MetricRow → FVal) (hg : colProj f = some g) :
    rowFactorRank df f hib r = .ok (match (g r).toNum? with
      | some fv => rankCount (df.map (fun x => (g x).toNum?)) (!hib) fv
      | none => nanRank (df.map (fun x => (g x).toNum?))) := by
  unfold rowFactorRank MetricRow.getCol colVals
  rw [hg]
  simp only [Option.map_some']
  cases h : (g r).toNum? <;> simp [h]

/-- A record whose factor value is NaN gets a strictly larger rank than any
record with a defined value, for either direction. -/
lemma rank_nan_worst
    (df : List MetricRow) (factor : String) (hib : Bool)
    (r1 r2 : MetricRow) (v : FVal) (q1 q2 : ℚ)
    (hr1 : r1 ∈ df) (hr2 : r2 ∈ df)
    (hu : MetricRow.getCol r1 factor = some FVal.nan)
    (hd : MetricRow.getCol r2 factor = some v) (hv : v ≠ FVal.nan)
    (e1 : rowFactorRank df factor hib r1 = .ok q1)
    (e2 : rowFactorRank df factor hib r2 = .ok q2) :
    q2 < q1 := by
  unfold MetricRow.getCol at hu hd
  cases hg : colProj factor with
  | none => rw [hg] at hu; cases hu
  | some g =>
      rw [hg] at hu hd
      simp only [Option.map_some', Option.some.injEq] at hu hd
      obtain ⟨fv, hfv⟩ : ∃ fv, (g r2).toNum? = some fv := by
        rw [hd]
        cases v with
        | nan => exact absurd rfl hv
        | fin q => exact ⟨_, rfl⟩
        | inf => exact ⟨_, rfl⟩
        | negInf => exact ⟨_, rfl⟩
      rw [rowFactorRank_ok df factor hib r1 g hg] at e1
      rw [rowFactorRank_ok df factor hib r2 g hg] at e2
      rw [hu] at e1
      rw [hfv] at e2
      simp only [FVal.toNum?, Except.ok.injEq] at e1 e2
      subst e1
      subst e2
      exact rankCount_lt_nanRank _ (!hib) fv
        (List.mem_map.mpr ⟨r2, hr2, hfv⟩)
        (List.mem_map.mpr ⟨r1, hr1, by rw [hu]⟩)

/-- C1: in `rank_stocks`, for every weighted factor and every pair of metric
records, a record whose value for that factor is undefined (NaN) receives a
strictly worse — numerically larger — per-factor rank than every record with
a defined value for that factor, regardless of the factor's
`higher_is_better` direction. -/
theorem claim_C1_undefined_ranked_worst
    (df : List MetricRow) (factor : String) (hib : Bool)
    (r1 r2 : MetricRow) (v : FVal) (q1 q2 : ℚ)
    (hr1 : r1 ∈ df) (hr2 : r2 ∈ df)
    (hu : MetricRow.getCol r1 factor = some FVal.nan)
    (hd : MetricRow.getCol r2 factor = some v) (hv : v ≠ FVal.nan)
    (e1 : rowFactorRank df factor hib r1 = .ok q1)
    (e2 : rowFactorRank df factor hib r2 = .ok q2) :
    q2 < q1 :=
  rank_nan_worst df factor hib r1 r2 v q1 q2 hr1 hr2 hu hd hv e1 e2

theorem claim_C1_witness :
    rowFactorRank [rowOfROIC "A" .nan, rowOfROIC "B" (.fin 2)] "ROIC" true
        (rowOfROIC "A" .nan) = .ok 2
    ∧ rowFactorRank [rowOfROIC "A" .nan, rowOfROIC "B" (.fin 2)] "ROIC" true
        (rowOfROIC "B" (.fin 2)) = .ok 1
    ∧ (1 : ℚ) < 2 := by
  have h1 : rowFactorRank [rowOfROIC "A" .nan, rowOfROIC "B" (.fin 2)] "ROIC"
      true (rowOfROIC "A" .nan) = .ok 2 := by
    simp +decide [rowFactorRank, MetricRow.getCol, colVals, colProj, rowOfROIC,
      nanRank, FVal.toNum?, List.filter_cons, List.filter_nil] <;> norm_num
  have h2 : rowFactorRank [rowOfROIC "A" .nan, rowOfROIC "B" (.fin 2)] "ROIC"
      true (rowOfROIC "B" (.fin 2)) = .ok 1 := by
    simp +decide [rowFactorRank, MetricRow.getCol, colVals, colProj, rowOfROIC,
      rankCount, FVal.toNum?, FNum.lt, List.filter_cons, List.filter_nil] <;> norm_num
  exact ⟨h1, h2,
    claim_C1_undefined_ranked_worst
      [rowOfROIC "A" .nan, rowOfROIC "B" (.fin 2)] "ROIC" true
      (rowOfROIC "A" .nan) (rowOfROIC "B" (.fin 2)) (.fin 2) 2 1
      (by simp) (by simp)
      (by simp +decide [MetricRow.getCol, colProj, rowOfROIC])
      (by simp +decide [MetricRow.getCol, colProj, rowOfROIC])
      (by simp) h1 h2⟩

/-- C5: ranking a factor on the same records (all values defined) with
`higher_is_better=true` produces the reverse of the rank order produced with
`higher_is_better=false`; with `false` rank 1 goes to the (strictly unique)
lowest raw value, with `true` to the highest. -/
theorem claim_C5_direction_reversal
    (df : List MetricRow) (factor : String) (g : MetricRow → FVal)
    (hg : colProj factor = some g)
    (hall : ∀ r ∈ df, ((g r).toNum?).isSome = true)
    (r1 r2 : MetricRow) (hr1 : r1 ∈ df) (hr2 : r2 ∈ df)
    (q1t q2t q1f q2f : ℚ)
    (e1t : rowFactorRank df factor true r1 = .ok q1t)
    (e2t : rowFactorRank df factor true r2 = .ok q2t)
    (e1f : rowFactorRank df factor false r1 = .ok q1f)
    (e2f : rowFactorRank df factor false r2 = .ok q2f) :
    (q1t < q2t ↔ q2f < q1f)
    ∧ (∀ v1, (g r1).toNum? = some v1 →
        ((df.map (fun r => (g r).toNum?)).filter (· = some v1)).length = 1 →
        ((∀ r ∈ df, ∀ v, (g r).toNum? = some v → v ≠ v1 →
            FNum.lt v v1 = true) → q1t = 1)
        ∧ ((∀ r ∈ df, ∀ v, (g r).toNum? = some v → v ≠ v1 →
            FNum.lt v1 v = true) → q1f = 1)) := by
  set col := df.map (fun r => (g r).toNum?) with hcol
  obtain ⟨v1, hv1⟩ := Option.isSome_iff_exists.mp (hall r1 hr1)
  obtain ⟨v2, hv2⟩ := Option.isSome_iff_exists.mp (hall r2 hr2)
  rw [rowFactorRank_ok df factor true r1 g hg, hv1] at e1t
  rw [rowFactorRank_ok df factor true r2 g hg, hv2] at e2t
  rw [rowFactorRank_ok df factor false r1 g hg, hv1] at e1f
  rw [rowFactorRank_ok df factor false r2 g hg, hv2] at e2f
  simp only [Except.ok.injEq, Bool.not_true, Bool.not_false] at e1t e2t e1f e2f
  have hallcol : ∀ w ∈ col, w.isSome = true := by
    intro w hw
    obtain ⟨r, hr, rfl⟩ := List.mem_map.mp hw
    exact hall r hr
  have hsum1 := rankCount_asc_add_desc col v1 hallcol
  have hsum2 := rankCount_asc_add_desc col v2 hallcol
  constructor
  · rw [← e1t, ← e2t, ← e1f, ← e2f]
    constructor <;> intro hlt <;> linarith
  · intro v1' hv1' hcount
    rw [hv1] at hv1'
    cases hv1'
    constructor
    · intro hb
      rw [← e1t]
      refine rankCount_top col v1 hcount ?_
      intro x hx hne
      obtain ⟨r, hr, rfl⟩ := List.mem_map.mp hx
      obtain ⟨v, hv⟩ := Option.isSome_iff_exists.mp (hall r hr)
      refine ⟨v, hv, hb r hr v hv ?_⟩
      intro he
      exact hne (by rw [hv, he])
    · intro hb
      rw [← e1f]
      refine rankCount_bottom col v1 hcount ?_
      intro x hx hne
      obtain ⟨r, hr, rfl⟩ := List.mem_map.mp hx
      obtain ⟨v, hv⟩ := Option.isSome_iff_exists.mp (hall r hr)
      refine ⟨v, hv, hb r hr v hv ?_⟩
      intro he
      exact hne (by rw [hv, he])

theorem claim_C5_witness :
    rowFactorRank [rowOfROIC "A" (.fin 1), rowOfROIC "B" (.fin 2)] "ROIC" true
        (rowOfROIC "B" (.fin 2)) = .ok 1
    ∧ rowFactorRank [rowOfROIC "A" (.fin 1), rowOfROIC "B" (.fin 2)] "ROIC" true
        (rowOfROIC "A" (.fin 1)) = .ok 2
    ∧ rowFactorRank [rowOfROIC "A" (.fin 1), rowOfROIC "B" (.fin 2)] "ROIC" false
        (rowOfROIC "B" (.fin 2)) = .ok 2
    ∧ rowFactorRank [rowOfROIC "A" (.fin 1), rowOfROIC "B" (.fin 2)] "ROIC" false
        (rowOfROIC "A" (.fin 1)) = .ok 1
    ∧ ((1 : ℚ) < 2 ↔ (1 : ℚ) < 2) := by
  have h1 : rowFactorRank [rowOfROIC "A" (.fin 1), rowOfROIC "B" (.fin 2)]
      "ROIC" true (rowOfROIC "B" (.fin 2)) = .ok 1 := by
    simp +decide [rowFactorRank, MetricRow.getCol, colVals, colProj, rowOfROIC,
      rankCount, FVal.toNum?, FNum.lt, List.filter_cons, List.filter_nil] <;>
      norm_num
  have h2 : rowFactorRank [rowOfROIC "A" (.fin 1), rowOfROIC "B" (.fin 2)]
      "ROIC" true (rowOfROIC "A" (.fin 1)) = .ok 2 := by
    simp +decide [rowFactorRank, MetricRow.getCol, colVals, colProj, rowOfROIC,
      rankCount, FVal.toNum?, FNum.lt, List.filter_cons, List.filter_nil] <;>
      norm_num
  have h3 : rowFactorRank [rowOfROIC "A" (.fin 1), rowOfROIC "B" (.fin 2)]
      "ROIC" false (rowOfROIC "B" (.fin 2)) = .ok 2 := by
    simp +decide [rowFactorRank, MetricRow.getCol, colVals, colProj, rowOfROIC,
      rankCount, FVal.toNum?, FNum.lt, List.filter_cons, List.filter_nil] <;>
      norm_num
  have h4 : rowFactorRank [rowOfROIC "A" (.fin 1), rowOfROIC "B" (.fin 2)]
      "ROIC" false (rowOfROIC "A" (.fin 1)) = .ok 1 := by
    simp +decide [rowFactorRank, MetricRow.getCol, colVals, colProj, rowOfROIC,
      rankCount, FVal.toNum?, FNum.lt, List.filter_cons, List.filter_nil] <;>
      norm_num
  refine ⟨h1, h2, h3, h4, ?_⟩
  exact (claim_C5_direction_reversal
    [rowOfROIC "A" (.fin 1), rowOfROIC "B" (.fin 2)] "ROIC" MetricRow.roic
    rfl (by decide)
    (rowOfROIC "B" (.fin 2)) (rowOfROIC "A" (.fin 1))
    (by simp) (by simp) 1 2 2 1 h1 h2 h3 h4).1

/-! ### Structure of the `rank_stocks` output -/

lemma exceptMapM_ok_forall2 {α β : Type} (f : α → Except String β) :
    ∀ (l : List α) (ys : List β),
      l.mapM f = Except.ok ys
        ↔ List.Forall₂ (fun a b => f a = Except.ok b) l ys := by
  intro l
  induction l with
  | nil =>
      intro ys
      constructor
      · intro h
        cases ys with
        | nil => exact List.Forall₂.nil
        | cons y ys =>
            simp [List.mapM, List.mapM.loop, pure, Except.pure] at h
      · intro h
        cases h
        rfl
  | cons a l ih =>
      intro ys
      rw [List.mapM_cons]
      constructor
      · intro h
        cases hfa : f a with
        | error e => rw [hfa] at h; simp [Bind.bind, Except.bind] at h
        | ok b =>
            rw [hfa] at h
            simp only [Bind.bind, Except.bind] at h
            cases hml : l.mapM f with
            | error e => rw [hml] at h; simp at h
            | ok bs =>
                rw [hml] at h
                simp only [pure, Except.pure, Except.ok.injEq] at h
                subst h
                exact List.Forall₂.cons hfa ((ih bs).mp hml)
      · intro h
        cases h with
        | cons hfa htail =>
            rw [hfa]
            simp only [Bind.bind, Except.bind]
            rw [(ih _).mpr htail]
            rfl

lemma withPositions_length (l : List RankedRow) :
    ∀ i, (withPositions i l).length = l.length := by
  induction l with
  | nil => intro i; rfl
  | cons r rs ih => intro i; simp [withPositions, ih]

lemma withPositions_map_snd (l : List RankedRow) :
    ∀ i, (withPositions i l).map Prod.snd = l := by
  induction l with
  | nil => intro i; rfl
  | cons r rs ih => intro i; simp [withPositions, ih]

lemma withPositions_map_fst (l : List RankedRow) :
    ∀ i, (withPositions i l).map Prod.fst = List.range' i l.length := by
  induction l with
  | nil => intro i; rfl
  | cons r rs ih => intro i; simp [withPositions, ih, List.range']

lemma withPositions_pairwise (R : RankedRow → RankedRow → Prop)
    (l : List RankedRow) (h : List.Pairwise R l) :
    ∀ i, List.Pairwise (fun a b => R a.2 b.2) (withPositions i l) := by
  induction h with
  | nil => intro i; exact List.Pairwise.nil
  | cons hr htail ih =>
      intro i
      refine List.Pairwise.cons ?_ (ih (i + 1))
      intro p hp
      have : p.2 ∈ (withPositions (i + 1) _).map Prod.snd :=
        List.mem_map.mpr ⟨p, hp, rfl⟩
      rw [withPositions_map_snd] at this
      exact hr p.2 this

lemma mem_withPositions (l : List RankedRow) (p : ℕ × RankedRow) :
    ∀ i, p ∈ withPositions i l → p.2 ∈ l := by
  induction l with
  | nil => intro i h; cases h
  | cons r rs ih =>
      intro i h
      cases h with
      | head => exact List.mem_cons_self _ _
      | tail _ h => exact List.mem_cons_of_mem _ (ih (i + 1) h)

/-- C4: a successful `rank_stocks` output is sorted ascending by composite
score (綜合分), and the attached final positions are the 1-based indices
1, 2, …, n of that order — so the best (lowest composite score) record comes
first. -/
theorem claim_C4_sorted_ascending (df : List MetricRow)
    (w : List (String × WeightInfo)) (out : List (ℕ × RankedRow))
    (h : rank_stocks df w = .ok out) :
    List.Pairwise (fun a b : ℕ × RankedRow => a.2.score ≤ b.2.score) out
    ∧ out.map Prod.fst = List.range' 1 out.length := by
  unfold rank_stocks at h
  cases hm : df.mapM (rankedRowOf df w) with
  | error e =>
      rw [hm] at h
      simp [Bind.bind, Except.bind] at h
  | ok rows =>
      rw [hm] at h
      simp only [Bind.bind, Except.bind, pure, Except.pure,
        Except.ok.injEq] at h
      subst h
      have hsorted : List.Pairwise scoreLE (rows.insertionSort scoreLE) :=
        List.sorted_insertionSort scoreLE rows
      refine ⟨withPositions_pairwise scoreLE _ hsorted 1, ?_⟩
      rw [withPositions_map_fst, withPositions_length]

set_option maxRecDepth 4000

theorem claim_C4_witness :
    rank_stocks [rowOfROIC "A" (.fin 1), rowOfROIC "B" (.fin 2)]
        [("ROIC", ⟨1, true⟩)]
      = .ok [(1, ⟨rowOfROIC "B" (.fin 2), [("ROIC", 1)], 1⟩),
             (2, ⟨rowOfROIC "A" (.fin 1), [("ROIC", 2)], 2⟩)]
    ∧ List.Pairwise (fun a b : ℕ × RankedRow => a.2.score ≤ b.2.score)
        [(1, ⟨rowOfROIC "B" (.fin 2), [("ROIC", 1)], 1⟩),
         (2, ⟨rowOfROIC "A" (.fin 1), [("ROIC", 2)], 2⟩)]
    ∧ ([(1, ⟨rowOfROIC "B" (.fin 2), [("ROIC", 1)], 1⟩),
        (2, ⟨rowOfROIC "A" (.fin 1), [("ROIC", 2)], 2⟩)] :
          List (ℕ × RankedRow)).map Prod.fst
        = List.range' 1 2 := by
  have h : rank_stocks [rowOfROIC "A" (.fin 1), rowOfROIC "B" (.fin 2)]
      [("ROIC", ⟨1, true⟩)]
      = .ok [(1, ⟨rowOfROIC "B" (.fin 2), [("ROIC", 1)], 1⟩),
             (2, ⟨rowOfROIC "A" (.fin 1), [("ROIC", 2)], 2⟩)] := by
    simp +decide [rank_stocks, rankedRowOf, rowFactorRank, MetricRow.getCol,
      colVals, colProj, rowOfROIC, rankCount, nanRank, FVal.toNum?, FNum.lt,
      List.filter_cons, List.filter_nil, List.mapM, List.mapM.loop,
      Bind.bind, Except.bind, pure, Except.pure, List.insertionSort,
      List.orderedInsert, withPositions, scoreLE] <;> norm_num
  have hc := claim_C4_sorted_ascending
    [rowOfROIC "A" (.fin 1), rowOfROIC "B" (.fin 2)] [("ROIC", ⟨1, true⟩)]
    [(1, ⟨rowOfROIC "B" (.fin 2), [("ROIC", 1)], 1⟩),
     (2, ⟨rowOfROIC "A" (.fin 1), [("ROIC", 2)], 2⟩)] h
  exact ⟨h, hc.1, hc.2⟩

/-! ### Decomposition of `rankedRowOf` for the composite-score claim -/

lemma forall2_mem_right {α β : Type} {R : α → β → Prop} :
    ∀ {l1 : List α} {l2 : List β}, List.Forall₂ R l1 l2 →
      ∀ b ∈ l2, ∃ a ∈ l1, R a b := by
  intro l1 l2 h
  induction h with
  | nil => intro b hb; cases hb
  | cons hr _ ih =>
      intro b hb
      cases hb with
      | head => exact ⟨_, List.mem_cons_self _ _, hr⟩
      | tail _ hb =>
          obtain ⟨a, ha, hab⟩ := ih b hb
          exact ⟨a, List.mem_cons_of_mem _ ha, hab⟩

lemma forall2_map_right {α β γ : Type} {R : α → β → Prop} {S : α → γ → Prop}
    (f : β → γ) (h : ∀ a b, R a b → S a (f b)) :
    ∀ {l1 : List α} {l2 : List β}, List.Forall₂ R l1 l2 →
      List.Forall₂ S l1 (l2.map f) := by
  intro l1 l2 hf
  induction hf with
  | nil => exact List.Forall₂.nil
  | cons hr _ ih => exact List.Forall₂.cons (h _ _ hr) ih

lemma bind_pure_ok {β γ : Type} (x : Except String β) (f : β → γ) (c : γ) :
    (x >>= fun b => pure (f b)) = Except.ok c ↔ ∃ b, x = .ok b ∧ c = f b := by
  cases x <;> simp [Bind.bind, Except.bind, pure, Except.pure, eq_comm]

lemma score_sum_eq :
    ∀ {w : List (String × WeightInfo)} {pairs : List (String × ℚ × ℚ)},
      List.Forall₂ (fun fw p => p.2.1 = fw.2.weight) w pairs →
      (pairs.map (fun p => p.2.2 * p.2.1)).sum
        = ((w.zip (pairs.map (fun p => p.2.2))).map
            (fun p => p.2 * p.1.2.weight)).sum := by
  intro w pairs h
  induction h with
  | nil => rfl
  | cons hr _ ih =>
      simp only [List.map_cons, List.zip_cons_cons, List.sum_cons, hr, ih]

/-- C3: for every record in a successful `rank_stocks` output, the composite
score 綜合分 equals the sum, over exactly the factor entries of the `weights`
mapping, of that factor's per-factor rank times that factor's weight;
factors absent from `weights` contribute nothing (the sum ranges over
`weights` alone). -/
theorem claim_C3_composite_score (df : List MetricRow)
    (w : List (String × WeightInfo)) (out : List (ℕ × RankedRow))
    (i : ℕ) (rr : RankedRow)
    (h : rank_stocks df w = .ok out) (hmem : (i, rr) ∈ out) :
    ∃ qs : List ℚ,
      List.Forall₂ (fun fw q =>
        rowFactorRank df fw.1 fw.2.higher_is_better rr.row = .ok q) w qs
      ∧ rr.score
        = ((w.zip qs).map (fun p => p.2 * p.1.2.weight)).sum := by
  unfold rank_stocks at h
  cases hm : df.mapM (rankedRowOf df w) with
  | error e =>
      rw [hm] at h
      simp [Bind.bind, Except.bind] at h
  | ok rows =>
      rw [hm] at h
      simp only [Bind.bind, Except.bind, pure, Except.pure,
        Except.ok.injEq] at h
      subst h
      have hrrs : rr ∈ rows.insertionSort scoreLE :=
        mem_withPositions _ (i, rr) 1 hmem
      have hrr : rr ∈ rows := (List.mem_insertionSort scoreLE).mp hrrs
      obtain ⟨r, hrdf, hok⟩ :=
        forall2_mem_right ((exceptMapM_ok_forall2 _ df rows).mp hm) rr hrr
      unfold rankedRowOf at hok
      cases hp : w.mapM (fun fw => do
          let q ← rowFactorRank df fw.1 fw.2.higher_is_better r
          pure (fw.1, fw.2.weight, q)) with
      | error e =>
          rw [hp] at hok
          simp [Bind.bind, Except.bind] at hok
      | ok pairs =>
          rw [hp] at hok
          simp only [Bind.bind, Except.bind, pure, Except.pure,
            Except.ok.injEq] at hok
          have hF2 := (exceptMapM_ok_forall2 _ w pairs).mp hp
          have hrow : rr.row = r := by rw [← hok]
          refine ⟨pairs.map (fun p => p.2.2), ?_, ?_⟩
          · refine forall2_map_right _ ?_ hF2
            intro fw p hfp
            obtain ⟨q, hq, hpv⟩ := (bind_pure_ok _ _ _).mp hfp
            rw [hrow, hpv, hq]
          · have hscore : rr.score = (pairs.map (fun p => p.2.2 * p.2.1)).sum := by
              rw [← hok]
            rw [hscore]
            refine score_sum_eq ?_
            refine List.Forall₂.imp ?_ hF2
            intro fw p hfp
            obtain ⟨q, _, hpv⟩ := (bind_pure_ok _ _ _).mp hfp
            rw [hpv]

theorem claim_C3_witness :
    rank_stocks [rowOfROIC "A" (.fin 1), rowOfROIC "B" (.fin 2)]
        [("ROIC", ⟨2, true⟩)]
      = .ok [(1, ⟨rowOfROIC "B" (.fin 2), [("ROIC", 1)], 2⟩),
             (2, ⟨rowOfROIC "A" (.fin 1), [("ROIC", 2)], 4⟩)]
    ∧ ∃ qs : List ℚ,
        List.Forall₂ (fun (fw : String × WeightInfo) (q : ℚ) =>
          rowFactorRank [rowOfROIC "A" (.fin 1), rowOfROIC "B" (.fin 2)]
            fw.1 fw.2.higher_is_better (rowOfROIC "B" (.fin 2)) = .ok q)
          [("ROIC", ⟨2, true⟩)] qs
        ∧ (2 : ℚ)
          = (([(("ROIC", (⟨2, true⟩ : WeightInfo)))].zip qs).map
              (fun p => p.2 * p.1.2.weight)).sum := by
  have h : rank_stocks [rowOfROIC "A" (.fin 1), rowOfROIC "B" (.fin 2)]
      [("ROIC", ⟨2, true⟩)]
      = .ok [(1, ⟨rowOfROIC "B" (.fin 2), [("ROIC", 1)], 2⟩),
             (2, ⟨rowOfROIC "A" (.fin 1), [("ROIC", 2)], 4⟩)] := by
    simp +decide [rank_stocks, rankedRowOf, rowFactorRank, MetricRow.getCol,
      colVals, colProj, rowOfROIC, rankCount, nanRank, FVal.toNum?, FNum.lt,
      List.filter_cons, List.filter_nil, List.mapM, List.mapM.loop,
      Bind.bind, Except.bind, pure, Except.pure, List.insertionSort,
      List.orderedInsert, withPositions, scoreLE] <;> norm_num
  refine ⟨h, ?_⟩
  have hc := claim_C3_composite_score
    [rowOfROIC "A" (.fin 1), rowOfROIC "B" (.fin 2)] [("ROIC", ⟨2, true⟩)]
    [(1, ⟨rowOfROIC "B" (.fin 2), [("ROIC", 1)], 2⟩),
     (2, ⟨rowOfROIC "A" (.fin 1), [("ROIC", 2)], 4⟩)] 1
    ⟨rowOfROIC "B" (.fin 2), [("ROIC", 1)], 2⟩ h (by simp)
  exact hc

/-- C6: the 3-year revenue CAGR is undefined (NaN) whenever fewer than 4
periods of Total Revenue are available (including a missing Total Revenue
row) or the revenue three periods back is not > 0; otherwise it equals
`(Revenue[0] / Revenue[3]) ** (1/3) - 1`. -/
theorem claim_C6_cagr (t : String) (d : StockData) :
    ((∀ revs, d.financials.loc "Total Revenue" = some revs →
        revs.length < 4 ∨ ¬ (0 < revs.getD 3 0)) →
      (calculate_metrics t d).cagr = none)
    ∧ (∀ revs, d.financials.loc "Total Revenue" = some revs →
        4 ≤ revs.length → 0 < revs.getD 3 0 →
        (calculate_metrics t d).cagr
          = some ((revs.getD 0 0 / revs.getD 3 0) ^ ((1 : ℝ) / 3) - 1)) := by
  constructor
  · intro h
    cases hloc : d.financials.loc "Total Revenue" with
    | none => simp [calculate_metrics, tryCagr, hloc]
    | some revs =>
        rcases h revs hloc with hlen | hr3
        · simp [calculate_metrics, tryCagr, hloc, Nat.not_le_of_lt hlen]
        · by_cases hlen : 4 ≤ revs.length
          · obtain ⟨r3, h3⟩ : ∃ x, revs[3]? = some x :=
              ⟨_, List.getElem?_eq_getElem (by omega)⟩
            obtain ⟨r0, h0⟩ : ∃ x, revs[0]? = some x :=
              ⟨_, List.getElem?_eq_getElem (by omega)⟩
            have hD : revs.getD 3 0 = r3 := by
              simp [List.getD, h3]
            rw [hD] at hr3
            simp [calculate_metrics, tryCagr, hloc, hlen, h0, h3, hr3]
          · simp [calculate_metrics, tryCagr, hloc, hlen]
  · intro revs hloc hlen hr3
    obtain ⟨r3, h3⟩ : ∃ x, revs[3]? = some x :=
      ⟨_, List.getElem?_eq_getElem (by omega)⟩
    obtain ⟨r0, h0⟩ : ∃ x, revs[0]? = some x :=
      ⟨_, List.getElem?_eq_getElem (by omega)⟩
    have hD3 : revs.getD 3 0 = r3 := by simp [List.getD, h3]
    have hD0 : revs.getD 0 0 = r0 := by simp [List.getD, h0]
    rw [hD3] at hr3 ⊢
    rw [hD0]
    simp [calculate_metrics, tryCagr, hloc, hlen, h0, h3, hr3]

/-- C7: ROIC equals NOPAT / Invested Capital with tax rate
Tax Provision / Pretax Income when Pretax Income > 0 and 0 otherwise,
NOPAT = Operating Income × (1 − tax rate), Invested Capital =
Total Debt + Total Equity − Cash; it is undefined (NaN) when the invested
capital is 0 or any required line item is absent. -/
theorem claim_C7_roic (t : String) (d : StockData) :
    (∀ op tax pre td te cash : ℝ,
      d.financials.loc0 "Operating Income" = some op →
      d.financials.loc0 "Tax Provision" = some tax →
      d.financials.loc0 "Pretax Income" = some pre →
      d.balance_sheet.loc0 "Total Debt" = some td →
      d.balance_sheet.loc0 "Total Equity Gross Minority Interest" = some te →
      d.balance_sheet.loc0 "Cash And Cash Equivalents" = some cash →
      ((td + te - cash ≠ 0 →
        (calculate_metrics t d).roic
          = some ((op * (1 - (if 0 < pre then tax / pre else 0)))
              / (td + te - cash)))
       ∧ (td + te - cash = 0 → (calculate_metrics t d).roic = none)))
    ∧ ((d.financials.loc0 "Operating Income" = none
        ∨ d.financials.loc0 "Tax Provision" = none
        ∨ d.financials.loc0 "Pretax Income" = none
        ∨ d.balance_sheet.loc0 "Total Debt" = none
        ∨ d.balance_sheet.loc0 "Total Equity Gross Minority Interest" = none
        ∨ d.balance_sheet.loc0 "Cash And Cash Equivalents" = none) →
      (calculate_metrics t d).roic = none) := by
  constructor
  · intro op tax pre td te cash hop htax hpre htd hte hcash
    constructor
    · intro hic
      simp [calculate_metrics, tryROIC, hop, htax, hpre, htd, hte, hcash, hic]
    · intro hic
      simp [calculate_metrics, tryROIC, hop, htax, hpre, htd, hte, hcash, hic]
  · intro h
    cases h1 : d.financials.loc0 "Operating Income" <;>
    cases h2 : d.financials.loc0 "Tax Provision" <;>
    cases h3 : d.financials.loc0 "Pretax Income" <;>
    cases h4 : d.balance_sheet.loc0 "Total Debt" <;>
    cases h5 : d.balance_sheet.loc0 "Total Equity Gross Minority Interest" <;>
    cases h6 : d.balance_sheet.loc0 "Cash And Cash Equivalents" <;>
      simp_all [calculate_metrics, tryROIC]

theorem claim_C7_witness :
    dExC7.financials.loc0 "Operating Income" = some 100
    ∧ dExC7.financials.loc0 "Tax Provision" = some 20
    ∧ dExC7.financials.loc0 "Pretax Income" = some 80
    ∧ dExC7.balance_sheet.loc0 "Total Debt" = some 50
    ∧ dExC7.balance_sheet.loc0 "Total Equity Gross Minority Interest"
        = some 150
    ∧ dExC7.balance_sheet.loc0 "Cash And Cash Equivalents" = some 100
    ∧ ((50 : ℝ) + 150 - 100 ≠ 0)
    ∧ (calculate_metrics "T" dExC7).roic
        = some ((100 * (1 - (if (0 : ℝ) < 80 then 20 / 80 else 0)))
            / (50 + 150 - 100)) := by
  have h1 : dExC7.financials.loc0 "Operating Income" = some 100 := by
    simp +decide [dExC7, finTableC7, Table.loc0, Table.loc, List.find?]
  have h2 : dExC7.financials.loc0 "Tax Provision" = some 20 := by
    simp +decide [dExC7, finTableC7, Table.loc0, Table.loc, List.find?]
  have h3 : dExC7.financials.loc0 "Pretax Income" = some 80 := by
    simp +decide [dExC7, finTableC7, Table.loc0, Table.loc, List.find?]
  have h4 : dExC7.balance_sheet.loc0 "Total Debt" = some 50 := by
    simp +decide [dExC7, balTableC7, Table.loc0, Table.loc, List.find?]
  have h5 : dExC7.balance_sheet.loc0 "Total Equity Gross Minority Interest"
      = some 150 := by
    simp +decide [dExC7, balTableC7, Table.loc0, Table.loc, List.find?]
  have h6 : dExC7.balance_sheet.loc0 "Cash And Cash Equivalents"
      = some 100 := by
    simp +decide [dExC7, balTableC7, Table.loc0, Table.loc, List.find?]
  have hic : (50 : ℝ) + 150 - 100 ≠ 0 := by norm_num
  exact ⟨h1, h2, h3, h4, h5, h6, hic,
    ((claim_C7_roic "T" dExC7).1 100 20 80 50 150 100
      h1 h2 h3 h4 h5 h6).1 hic⟩

theorem claim_C6_witness :
    dExC6.financials.loc "Total Revenue" = some [16, 8, 4, 2]
    ∧ 4 ≤ ([16, 8, 4, 2] : List ℝ).length
    ∧ (0 : ℝ) < ([16, 8, 4, 2] : List ℝ).getD 3 0
    ∧ (calculate_metrics "T" dExC6).cagr
        = some ((([16, 8, 4, 2] : List ℝ).getD 0 0
              / ([16, 8, 4, 2] : List ℝ).getD 3 0) ^ ((1 : ℝ) / 3) - 1) := by
  have hloc : dExC6.financials.loc "Total Revenue" = some [16, 8, 4, 2] := by
    simp +decide [dExC6, finTableC6, Table.loc, List.find?]
  have hlen : 4 ≤ ([16, 8, 4, 2] : List ℝ).length := by simp
  have hr3 : (0 : ℝ) < ([16, 8, 4, 2] : List ℝ).getD 3 0 := by
    norm_num [List.getD]
  exact ⟨hloc, hlen, hr3,
    (claim_C6_cagr "T" dExC6).2 [16, 8, 4, 2] hloc hlen hr3⟩

/-! ### Handler validation claims -/

lemma jlookup_ne_nil {fields : List (String × JVal)} {key : String} {v : JVal}
    (h : jlookup fields key = some v) : fields ≠ [] := by
  intro he
  subst he
  simp [jlookup] at h

/-- Once validation passes, the pipeline answers 500 (no usable data, or the
catch-all) or 200 — never 400. -/
lemma afterValidation_status (ts : List JVal) (ws : List (String × JVal))
    (oracle : JVal → Option MetricRow) :
    (afterValidation ts ws oracle).status = 500
    ∨ (afterValidation ts ws oracle).status = 200 := by
  simp only [afterValidation]
  by_cases h : ts.filterMap oracle = []
  · rw [if_pos h]
    left; rfl
  · rw [if_neg h]
    cases hpw : parseWeights ws with
    | none => left; rfl
    | some w =>
        cases hrs : rank_stocks ((ts.filterMap oracle).map replaceInfRow) w with
        | error e => dsimp only; rw [hrs]; left; rfl
        | ok out => dsimp only; rw [hrs]; right; rfl

/-- Reduction of the handler on a request that passes all shape checks. -/
lemma handler_valid_eq (fields : List (String × JVal))
    (t : JVal) (ts : List JVal) (w0 : String × JVal)
    (ws : List (String × JVal)) (oracle : JVal → Option MetricRow)
    (htick : jlookup fields "tickers" = some (.jarr (t :: ts)))
    (hw : jlookup fields "weights" = some (.jobj (w0 :: ws))) :
    handler (.json (.jobj fields)) oracle
      = afterValidation (t :: ts) (w0 :: ws) oracle := by
  cases fields with
  | nil => exact absurd rfl (jlookup_ne_nil htick)
  | cons f fs =>
      unfold handler
      simp only [JVal.isTruthy, Bool.not_true, not_true_eq_false, if_false,
        htick, hw]

/-- C2 (amended): the handler enforces no maximum ticker count.  Any request
whose `tickers` is a non-empty list and `weights` a non-empty dict — however
long the ticker list — passes validation, the fetch loop runs over the whole
list, and the response is never a 400. -/
theorem claim_C2_no_ticker_cap (fields : List (String × JVal))
    (t : JVal) (ts : List JVal) (w0 : String × JVal)
    (ws : List (String × JVal)) (oracle : JVal → Option MetricRow)
    (htick : jlookup fields "tickers" = some (.jarr (t :: ts)))
    (hw : jlookup fields "weights" = some (.jobj (w0 :: ws))) :
    handler (.json (.jobj fields)) oracle
      = afterValidation (t :: ts) (w0 :: ws) oracle
    ∧ (handler (.json (.jobj fields)) oracle).status ≠ 400 := by
  have he := handler_valid_eq fields t ts w0 ws oracle htick hw
  refine ⟨he, ?_⟩
  rw [he]
  rcases afterValidation_status (t :: ts) (w0 :: ws) oracle with h | h <;>
    rw [h] <;> omega

/-- C2 counterexample: a request with 1000 tickers (far above any plausible
configured maximum) is not rejected with a count-specific 400; the handler
runs the fetch loop and answers 500 `no valid data` when every fetch fails. -/
theorem claim_C2_counterexample :
    manyTickers.length = 1000
    ∧ (handler
        (.json (.jobj [("tickers", .jarr manyTickers), ("weights", wobjROIC)]))
        (fun _ => none)).status = 500 := by
  constructor
  · simp [manyTickers]
  · have hfm : manyTickers.filterMap (fun _ => (none : Option MetricRow))
        = [] := by
      simp
    rw [handler_valid_eq _ (JVal.jstr "T") (List.replicate 999 (JVal.jstr "T"))
      ("ROIC", .jobj [("weight", .jnum 1), ("higher_is_better", .jbool true)])
      [] (fun _ => none) (by simp +decide [jlookup, List.find?, manyTickers])
      (by simp +decide [jlookup, List.find?, wobjROIC])]
    unfold afterValidation
    rw [show (JVal.jstr "T" :: List.replicate 999 (JVal.jstr "T"))
        = manyTickers from rfl, hfm]
    rfl

theorem claim_C2_witness :
    jlookup [("tickers", .jarr [.jstr "AAPL", .jstr "MSFT", .jstr "GOOG"]),
        ("weights", wobjROIC)] "tickers"
      = some (.jarr [.jstr "AAPL", .jstr "MSFT", .jstr "GOOG"])
    ∧ jlookup [("tickers", .jarr [.jstr "AAPL", .jstr "MSFT", .jstr "GOOG"]),
        ("weights", wobjROIC)] "weights" = some wobjROIC
    ∧ (handler (.json (.jobj [("tickers",
          .jarr [.jstr "AAPL", .jstr "MSFT", .jstr "GOOG"]),
          ("weights", wobjROIC)])) (fun _ => none)).status ≠ 400 := by
  have h1 : jlookup [("tickers",
      JVal.jarr [.jstr "AAPL", .jstr "MSFT", .jstr "GOOG"]),
      ("weights", wobjROIC)] "tickers"
      = some (.jarr [.jstr "AAPL", .jstr "MSFT", .jstr "GOOG"]) := by
    simp +decide [jlookup, List.find?]
  have h2 : jlookup [("tickers",
      JVal.jarr [.jstr "AAPL", .jstr "MSFT", .jstr "GOOG"]),
      ("weights", wobjROIC)] "weights" = some wobjROIC := by
    simp +decide [jlookup, List.find?]
  have h2' : jlookup [("tickers",
      JVal.jarr [.jstr "AAPL", .jstr "MSFT", .jstr "GOOG"]),
      ("weights", wobjROIC)] "weights"
      = some (.jobj [("ROIC", .jobj [("weight", .jnum 1),
          ("higher_is_better", .jbool true)])]) := h2
  exact ⟨h1, h2,
    (claim_C2_no_ticker_cap _ (JVal.jstr "AAPL")
      [JVal.jstr "MSFT", JVal.jstr "GOOG"]
      ("ROIC", .jobj [("weight", .jnum 1), ("higher_is_better", .jbool true)])
      [] (fun _ => none) h1 h2').2⟩

/-- C8 (amended): a request whose body parses to a falsy JSON value gets 400
"no JSON data"; a parsed object whose `tickers` is not a non-empty list gets
400 with the tickers message; one whose `tickers` is fine but whose
`weights` is not a non-empty dict gets 400 with the weights message — each a
JSON error object.  (A body that is *not valid JSON* makes `get_json` raise
and is answered 500 by the catch-all, not 400: see the counterexample.) -/
theorem claim_C8_validation :
    (∀ (v : JVal) (oracle : JVal → Option MetricRow),
      v.isTruthy = false →
      handler (.json v) oracle = errorResp 400 "無效的請求: 未提供 JSON 數據")
    ∧ (∀ (fields : List (String × JVal)) (oracle : JVal → Option MetricRow),
      fields ≠ [] →
      isNonEmptyArr (jlookup fields "tickers") = false →
      handler (.json (.jobj fields)) oracle
        = errorResp 400 "無效的請求: 'tickers' 必須是一個非空的列表")
    ∧ (∀ (fields : List (String × JVal)) (oracle : JVal → Option MetricRow),
      fields ≠ [] →
      isNonEmptyArr (jlookup fields "tickers") = true →
      isNonEmptyObj (jlookup fields "weights") = false →
      handler (.json (.jobj fields)) oracle
        = errorResp 400 "無效的請求: 'weights' 必須是一個非空的字典") := by
  refine ⟨?_, ?_, ?_⟩
  · intro v oracle hv
    unfold handler
    dsimp only
    rw [hv]
    simp
  · intro fields oracle hne harr
    cases fields with
    | nil => exact absurd rfl hne
    | cons f fs =>
        unfold handler
        dsimp only [JVal.isTruthy]
        cases hlt : jlookup (f :: fs) "tickers" with
        | none => rfl
        | some jv =>
            cases jv with
            | jarr items =>
                cases items with
                | nil => rfl
                | cons t ts => rw [hlt] at harr; simp [isNonEmptyArr] at harr
            | jnull => rfl
            | jbool b => rfl
            | jnum q => rfl
            | jstr s => rfl
            | jobj o => rfl
            | jraw tok => rfl
  · intro fields oracle hne harr hobj
    cases fields with
    | nil => exact absurd rfl hne
    | cons f fs =>
        obtain ⟨t, ts, hlt⟩ : ∃ t ts,
            jlookup (f :: fs) "tickers" = some (.jarr (t :: ts)) := by
          cases hlt : jlookup (f :: fs) "tickers" with
          | none => rw [hlt] at harr; simp [isNonEmptyArr] at harr
          | some jv =>
              cases jv with
              | jarr items =>
                  cases items with
                  | nil => rw [hlt] at harr; simp [isNonEmptyArr] at harr
                  | cons t ts => exact ⟨t, ts, rfl⟩
              | jnull => rw [hlt] at harr; simp [isNonEmptyArr] at harr
              | jbool b => rw [hlt] at harr; simp [isNonEmptyArr] at harr
              | jnum q => rw [hlt] at harr; simp [isNonEmptyArr] at harr
              | jstr s => rw [hlt] at harr; simp [isNonEmptyArr] at harr
              | jobj o => rw [hlt] at harr; simp [isNonEmptyArr] at harr
              | jraw tok => rw [hlt] at harr; simp [isNonEmptyArr] at harr
        unfold handler
        dsimp only [JVal.isTruthy]
        rw [hlt]
        cases hlw : jlookup (f :: fs) "weights" with
        | none => rfl
        | some jv =>
            cases jv with
            | jobj o =>
                cases o with
                | nil => rfl
                | cons w ws => rw [hlw] at hobj; simp [isNonEmptyObj] at hobj
            | jnull => rfl
            | jbool b => rfl
            | jnum q => rfl
            | jstr s => rfl
            | jarr a => rfl
            | jraw tok => rfl

/-- C8 counterexample: a request whose body is not valid JSON is answered
500 by the catch-all (Flask's `get_json` raises inside the handler's `try`),
not 400 as the claim states. -/
theorem claim_C8_counterexample :
    (handler .invalidJson (fun _ => none)).status = 500 := rfl

theorem claim_C8_witness :
    handler (.json .jnull) (fun _ => none)
      = errorResp 400 "無效的請求: 未提供 JSON 數據"
    ∧ handler (.json (.jobj [("tickers", .jnum 5)])) (fun _ => none)
      = errorResp 400 "無效的請求: 'tickers' 必須是一個非空的列表"
    ∧ handler (.json (.jobj [("tickers", .jarr [.jstr "AAPL"]),
          ("weights", .jarr [])])) (fun _ => none)
      = errorResp 400 "無效的請求: 'weights' 必須是一個非空的字典" := by
  refine ⟨claim_C8_validation.1 .jnull (fun _ => none) rfl,
    claim_C8_validation.2.1 [("tickers", .jnum 5)] (fun _ => none)
      (by simp) ?_,
    claim_C8_validation.2.2 [("tickers", .jarr [.jstr "AAPL"]),
      ("weights", .jarr [])] (fun _ => none) (by simp) ?_ ?_⟩
  · simp +decide [jlookup, List.find?, isNonEmptyArr]
  · simp +decide [jlookup, List.find?, isNonEmptyArr]
  · simp +decide [jlookup, List.find?, isNonEmptyObj]

/-- C9: the handler's
`pd.DataFrame(all_metrics).replace([np.inf, -np.inf], np.nan)` step replaces
every infinite factor value of the collected records by NaN, so every value
`rank_stocks` sees is finite or NaN; a record whose raw ratio was (±)inf is
ranked like an undefined value — strictly worse than every defined one, for
either direction — and is serialized as JSON `null`, not as an extreme
finite value. -/
theorem claim_C9_inf_replaced (rows : List MetricRow) (f : String)
    (g : MetricRow → FVal) (hg : colProj f = some g)
    (r : MetricRow) (hr : r ∈ rows) :
    (g (replaceInfRow r)).isFinOrNan = true
    ∧ ((g r = .inf ∨ g r = .negInf) →
        g (replaceInfRow r) = .nan
        ∧ jsonOfFVal (g (replaceInfRow r)) = .jnull
        ∧ (∀ (hib : Bool) (q1 q2 : ℚ) (r2 : MetricRow) (v : FVal),
            rowFactorRank (rows.map replaceInfRow) f hib (replaceInfRow r)
              = .ok q1 →
            r2 ∈ rows.map replaceInfRow →
            MetricRow.getCol r2 f = some v → v ≠ FVal.nan →
            rowFactorRank (rows.map replaceInfRow) f hib r2 = .ok q2 →
            q2 < q1)) := by
  have hrep := colProj_replaceInfRow f g hg r
  constructor
  · rw [hrep]
    cases g r <;> rfl
  · intro hinf
    have hnan : g (replaceInfRow r) = .nan := by
      rw [hrep]
      rcases hinf with h | h <;> rw [h] <;> rfl
    refine ⟨hnan, by rw [hnan]; rfl, ?_⟩
    intro hib q1 q2 r2 v e1 hr2 hd hv e2
    refine rank_nan_worst (rows.map replaceInfRow) f hib (replaceInfRow r) r2
      v q1 q2 (List.mem_map.mpr ⟨r, hr, rfl⟩) hr2 ?_ hd hv e1 e2
    unfold MetricRow.getCol
    rw [hg]
    simp only [Option.map_some', Option.some.injEq]
    exact hnan

theorem claim_C9_witness :
    (MetricRow.roic (replaceInfRow (rowOfROIC "A" .inf))).isFinOrNan = true
    ∧ MetricRow.roic (replaceInfRow (rowOfROIC "A" .inf)) = .nan
    ∧ jsonOfFVal (MetricRow.roic (replaceInfRow (rowOfROIC "A" .inf)))
        = .jnull
    ∧ rowFactorRank
        ([rowOfROIC "A" .inf, rowOfROIC "B" (.fin 1)].map replaceInfRow)
        "ROIC" true (replaceInfRow (rowOfROIC "A" .inf)) = .ok 2
    ∧ rowFactorRank
        ([rowOfROIC "A" .inf, rowOfROIC "B" (.fin 1)].map replaceInfRow)
        "ROIC" true (rowOfROIC "B" (.fin 1)) = .ok 1
    ∧ (1 : ℚ) < 2 := by
  have hc := claim_C9_inf_replaced [rowOfROIC "A" .inf, rowOfROIC "B" (.fin 1)]
    "ROIC" MetricRow.roic rfl (rowOfROIC "A" .inf) (by simp)
  have hmain := hc.2 (Or.inl (by rfl))
  have e1 : rowFactorRank
      ([rowOfROIC "A" .inf, rowOfROIC "B" (.fin 1)].map replaceInfRow)
      "ROIC" true (replaceInfRow (rowOfROIC "A" .inf)) = .ok 2 := by
    simp +decide [rowFactorRank, MetricRow.getCol, colVals, colProj,
      rowOfROIC, replaceInfRow, replaceInfVal, nanRank, FVal.toNum?,
      List.filter_cons, List.filter_nil] <;> norm_num
  have e2 : rowFactorRank
      ([rowOfROIC "A" .inf, rowOfROIC "B" (.fin 1)].map replaceInfRow)
      "ROIC" true (rowOfROIC "B" (.fin 1)) = .ok 1 := by
    simp +decide [rowFactorRank, MetricRow.getCol, colVals, colProj,
      rowOfROIC, replaceInfRow, replaceInfVal, rankCount, FVal.toNum?,
      FNum.lt, List.filter_cons, List.filter_nil] <;> norm_num
  refine ⟨hc.1, hmain.1, hmain.2.1, e1, e2, ?_⟩
  exact hmain.2.2 true 2 1 (rowOfROIC "B" (.fin 1)) (.fin 1) e1
    (by simp [replaceInfRow, replaceInfVal, rowOfROIC])
    (by simp +decide [MetricRow.getCol, colProj, rowOfROIC]) (by simp) e2

lemma forall2_mem_left {α β : Type} {R : α → β → Prop} :
    ∀ {l1 : List α} {l2 : List β}, List.Forall₂ R l1 l2 →
      ∀ a ∈ l1, ∃ b ∈ l2, R a b := by
  intro l1 l2 h
  induction h with
  | nil => intro a ha; cases ha
  | cons hr _ ih =>
      intro a ha
      cases ha with
      | head => exact ⟨_, List.mem_cons_self _ _, hr⟩
      | tail _ ha =>
          obtain ⟨b, hb, hab⟩ := ih a ha
          exact ⟨b, List.mem_cons_of_mem _ hb, hab⟩

/-- The ranker cannot succeed when some weighted factor has no DataFrame
column and there is at least one row: the first rank assignment raises
`KeyError`. -/
lemma rank_stocks_error_of_unknown (factor : String) (wi : WeightInfo)
    (hfac : colProj factor = none) (df : List MetricRow)
    (w : List (String × WeightInfo)) (hdf : df ≠ [])
    (hw : (factor, wi) ∈ w) :
    ∃ e, rank_stocks df w = .error e := by
  cases hr : rank_stocks df w with
  | error e => exact ⟨e, rfl⟩
  | ok out =>
      exfalso
      unfold rank_stocks at hr
      cases hm : df.mapM (rankedRowOf df w) with
      | error e => rw [hm] at hr; simp [Bind.bind, Except.bind] at hr
      | ok rows =>
          cases df with
          | nil => exact hdf rfl
          | cons r rs =>
              have hF := (exceptMapM_ok_forall2 _ _ rows).mp hm
              obtain ⟨rr, _, hok⟩ :=
                forall2_mem_left hF r (List.mem_cons_self r rs)
              unfold rankedRowOf at hok
              cases hp : w.mapM (fun fw => do
                  let q ← rowFactorRank (r :: rs) fw.1
                    fw.2.higher_is_better r
                  pure (fw.1, fw.2.weight, q)) with
              | error e =>
                  rw [hp] at hok
                  simp [Bind.bind, Except.bind] at hok
              | ok pairs =>
                  have hF2 := (exceptMapM_ok_forall2 _ _ pairs).mp hp
                  obtain ⟨p, _, hip⟩ :=
                    forall2_mem_left hF2 (factor, wi) hw
                  obtain ⟨q, hq, _⟩ := (bind_pure_ok _ _ _).mp hip
                  unfold rowFactorRank MetricRow.getCol colVals at hq
                  rw [hfac] at hq
                  simp at hq

/-- C10: a weights entry whose factor name is not one of the metric-record
columns makes `rank_stocks` fail on the missing column (whenever there is at
least one row), and a request carrying such a weights entry — with at least
one ticker yielding metrics — is answered 500 through the top-level
catch-all; an unknown weighted factor is not silently ignored. -/
theorem claim_C10_unknown_factor_500 (factor : String) (wi : WeightInfo)
    (hfac : factor ∉ allColumnNames) :
    (∀ (df : List MetricRow) (w : List (String × WeightInfo)),
      df ≠ [] → (factor, wi) ∈ w → ∃ e, rank_stocks df w = .error e)
    ∧ (∀ (fields : List (String × JVal)) (t : JVal) (ts : List JVal)
        (w0 : String × JVal) (ws : List (String × JVal))
        (oracle : JVal → Option MetricRow) (w : List (String × WeightInfo)),
        jlookup fields "tickers" = some (.jarr (t :: ts)) →
        jlookup fields "weights" = some (.jobj (w0 :: ws)) →
        parseWeights (w0 :: ws) = some w →
        (factor, wi) ∈ w →
        (t :: ts).filterMap oracle ≠ [] →
        (handler (.json (.jobj fields)) oracle).status = 500) := by
  have hnone := colProj_eq_none factor hfac
  constructor
  · intro df w hdf hw
    exact rank_stocks_error_of_unknown factor wi hnone df w hdf hw
  · intro fields t ts w0 ws oracle w htick hwt hpw hmem hne
    rw [handler_valid_eq fields t ts w0 ws oracle htick hwt]
    have hmapne : ((t :: ts).filterMap oracle).map replaceInfRow ≠ [] := by
      intro h
      exact hne (List.map_eq_nil.mp h)
    obtain ⟨e, he⟩ := rank_stocks_error_of_unknown factor wi hnone
      (((t :: ts).filterMap oracle).map replaceInfRow) w hmapne hmem
    simp only [afterValidation]
    rw [if_neg hne, hpw]
    dsimp only
    rw [he]
    rfl

theorem claim_C10_witness :
    "PE" ∉ allColumnNames
    ∧ (∃ e, rank_stocks [rowOfROIC "A" (.fin 1)] [("PE", ⟨1, true⟩)]
        = .error e)
    ∧ (handler (.json (.jobj [("tickers", .jarr [.jstr "AAPL"]),
          ("weights", .jobj [("PE", .jobj [("weight", .jnum 1),
            ("higher_is_better", .jbool true)])])]))
        (fun _ => some (rowOfROIC "A" (.fin 1)))).status = 500 := by
  have hnot : "PE" ∉ allColumnNames := by decide
  have hc := claim_C10_unknown_factor_500 "PE" ⟨1, true⟩ hnot
  refine ⟨hnot,
    hc.1 [rowOfROIC "A" (.fin 1)] [("PE", ⟨1, true⟩)] (by simp) (by simp),
    hc.2 [("tickers", .jarr [.jstr "AAPL"]),
        ("weights", .jobj [("PE", .jobj [("weight", .jnum 1),
          ("higher_is_better", .jbool true)])])]
      (.jstr "AAPL") [] ("PE", .jobj [("weight", .jnum 1),
        ("higher_is_better", .jbool true)]) []
      (fun _ => some (rowOfROIC "A" (.fin 1))) [("PE", ⟨1, true⟩)]
      ?_ ?_ ?_ (by simp) (by simp)⟩
  · simp +decide [jlookup, List.find?]
  · simp +decide [jlookup, List.find?]
  · simp +decide [parseWeights, parseWeightInfo, jlookup, List.find?,
      JVal.isTruthy, List.mapM, List.mapM.loop, Option.bind, pure]
